import Mathlib

/-!
Verification development for the opencode-config-wizard repository.

The wizard is a sequential terminal program: it loads a JSON configuration
file into a structured value, asks the user a series of line-oriented
questions, mutates the structure, and writes it back.  This file gives a
shallow embedding of that data model and of the operations the claims talk
about, and proves or refutes each claim.

Modelling conventions, used throughout:

* Go maps (`map[string]T`) are represented by association lists
  `List (String × T)` whose entries are understood as an unordered
  collection with pairwise-distinct keys.  Where the program iterates a map
  (`for k := range m`), the Go runtime enumerates the keys in an
  unspecified order; such iteration is modelled by an explicit enumeration
  parameter, constrained to be a permutation of the keys where a theorem
  needs it.  Where the program serializes a map, `encoding/json` emits the
  entries in sorted key order; that sorting is modelled explicitly
  (`sortKey`).
* Nil-ability that the program observes is kept: a field holding a Go map
  whose nil-ness matters is an `Option (List _)`; a nil `*bool` or `*int`
  is `none`.  Slices and maps whose nil/empty distinction the program
  never observes (they sit under `omitempty` and are only read through
  `len`) are plain lists.
* JSON documents are an inductive `JValue`; JSON numbers are modelled as
  integers, which is the only kind of number this program ever writes
  (token limits and timeouts scanned with Sscanf `%d`).
* Terminal input is a `List String` of the lines the user types; each
  prompt consumes one line; an exhausted input list scans as blank lines,
  matching a closed stdin.  `strings.TrimSpace` is modelled by an explicit
  ASCII-whitespace trim (`goTrim`), and string functions are implemented
  over `String.data` by structural recursion so that every definition
  evaluates inside the kernel.
* Each interactive operation returns an `OpResult`: the configuration it
  passed to `saveConfig` (`none` when the operation returned without
  writing the file), the diagnostic messages the claims mention, and
  whether the run hit a Go runtime panic (assignment to an entry in a nil
  map).  Listing output and progress text are abstracted away; only the
  diagnostics the claims refer to are recorded, with the quote characters
  of the original format strings kept via escapes.
-/

/-- Lookup in an association list modelling a Go map read `m[k]`. -/
def getKey {α : Type} : List (String × α) → String → Option α
  | [], _ => none
  | (k2, v) :: rest, k => if k = k2 then some v else getKey rest k

/-- Membership test modelling the Go comma-ok read `_, ok := m[k]`. -/
def hasKey {α : Type} (l : List (String × α)) (k : String) : Bool :=
  (getKey l k).isSome

/-- Strict byte order on characters, as Go compares string bytes. -/
def charLt (a b : Char) : Bool := a.val < b.val

/-- Lexicographic order on character lists. -/
def charListLt : List Char → List Char → Bool
  | [], [] => false
  | [], _ :: _ => true
  | _ :: _, [] => false
  | a :: as, b :: bs =>
    if charLt a b then true else if charLt b a then false else charListLt as bs

/-- Lexicographic string order, the order in which `encoding/json` emits
map keys (UTF-8 byte order coincides with code-point order). -/
def strLt (a b : String) : Bool := charListLt a.data b.data

/-- Insertion or replacement modelling a Go map write `m[k] = v`.  The
entry is kept at the sorted position for its key so that association lists
with sorted keys are closed under writes; the represented unordered map is
the same whatever position is used. -/
def setKey {α : Type} : List (String × α) → String → α → List (String × α)
  | [], k, v => [(k, v)]
  | (k2, v2) :: rest, k, v =>
    if k = k2 then (k, v) :: rest
    else if strLt k k2 then (k, v) :: (k2, v2) :: rest
    else (k2, v2) :: setKey rest k v

/-- Removal modelling the Go builtin `delete(m, k)`. -/
def delKey {α : Type} : List (String × α) → String → List (String × α)
  | [], _ => []
  | (k2, v2) :: rest, k => if k = k2 then rest else (k2, v2) :: delKey rest k

/-- Insertion step of the key-sorting that `encoding/json` applies to map
keys when marshalling. -/
def insKey {α : Type} (p : String × α) : List (String × α) → List (String × α)
  | [] => [p]
  | q :: qs => if strLt q.1 p.1 then q :: insKey p qs else p :: q :: qs

/-- Sorting by key, modelling the sorted-key order in which `encoding/json`
marshals a Go map. -/
def sortKey {α : Type} : List (String × α) → List (String × α)
  | [] => []
  | p :: ps => insKey p (sortKey ps)

/-- Map over the values of an association list, keeping keys. -/
def mapVal {α β : Type} (f : α → β) (l : List (String × α)) : List (String × β) :=
  l.map (fun p => (p.1, f p.2))

/-- Keys of an association list, in list order. -/
def keysOf {α : Type} (l : List (String × α)) : List String :=
  l.map Prod.fst

/-- JSON values.  Numbers are integers: the wizard only ever writes
integers (Sscanf `%d` results), and the round-trip claims never exercise
non-integer numerics. -/
inductive JValue : Type where
  | null : JValue
  | bool (b : Bool) : JValue
  | num (n : Int) : JValue
  | str (s : String) : JValue
  | arr (elems : List JValue) : JValue
  | obj (fields : List (String × JValue)) : JValue

mutual

/-- Boolean equality on JSON values (spelled out because automatic
derivation does not handle the nesting). -/
def JValue.beq : JValue → JValue → Bool
  | .null, .null => true
  | .bool a, .bool b => a == b
  | .num a, .num b => a == b
  | .str a, .str b => a == b
  | .arr xs, .arr ys => beqJList xs ys
  | .obj fs, .obj gs => beqJFields fs gs
  | _, _ => false

/-- Boolean equality on JSON arrays. -/
def beqJList : List JValue → List JValue → Bool
  | [], [] => true
  | x :: xs, y :: ys => JValue.beq x y && beqJList xs ys
  | _, _ => false

/-- Boolean equality on JSON object field lists. -/
def beqJFields : List (String × JValue) → List (String × JValue) → Bool
  | [], [] => true
  | (k, v) :: fs, (k2, w) :: gs => k == k2 && JValue.beq v w && beqJFields fs gs
  | _, _ => false

end

mutual

/-- Soundness of `JValue.beq`. -/
theorem JValue.eq_of_beq : ∀ a b : JValue, JValue.beq a b = true → a = b
  | .null, .null, _ => rfl
  | .bool a, .bool b, h => by
      simp only [JValue.beq] at h; exact congrArg JValue.bool (by simpa using h)
  | .num a, .num b, h => by
      simp only [JValue.beq] at h; exact congrArg JValue.num (by simpa using h)
  | .str a, .str b, h => by
      simp only [JValue.beq] at h; exact congrArg JValue.str (by simpa using h)
  | .arr xs, .arr ys, h => congrArg JValue.arr (eqJList_of_beq xs ys h)
  | .obj fs, .obj gs, h => congrArg JValue.obj (eqJFields_of_beq fs gs h)
  | .null, .bool _, h => nomatch h
  | .null, .num _, h => nomatch h
  | .null, .str _, h => nomatch h
  | .null, .arr _, h => nomatch h
  | .null, .obj _, h => nomatch h
  | .bool _, .null, h => nomatch h
  | .bool _, .num _, h => nomatch h
  | .bool _, .str _, h => nomatch h
  | .bool _, .arr _, h => nomatch h
  | .bool _, .obj _, h => nomatch h
  | .num _, .null, h => nomatch h
  | .num _, .bool _, h => nomatch h
  | .num _, .str _, h => nomatch h
  | .num _, .arr _, h => nomatch h
  | .num _, .obj _, h => nomatch h
  | .str _, .null, h => nomatch h
  | .str _, .bool _, h => nomatch h
  | .str _, .num _, h => nomatch h
  | .str _, .arr _, h => nomatch h
  | .str _, .obj _, h => nomatch h
  | .arr _, .null, h => nomatch h
  | .arr _, .bool _, h => nomatch h
  | .arr _, .num _, h => nomatch h
  | .arr _, .str _, h => nomatch h
  | .arr _, .obj _, h => nomatch h
  | .obj _, .null, h => nomatch h
  | .obj _, .bool _, h => nomatch h
  | .obj _, .num _, h => nomatch h
  | .obj _, .str _, h => nomatch h
  | .obj _, .arr _, h => nomatch h

/-- Soundness of `beqJList`. -/
theorem eqJList_of_beq : ∀ xs ys : List JValue, beqJList xs ys = true → xs = ys
  | [], [], _ => rfl
  | x :: xs, y :: ys, h => by
      simp only [beqJList, Bool.and_eq_true] at h
      exact congrArg₂ List.cons (JValue.eq_of_beq x y h.1) (eqJList_of_beq xs ys h.2)
  | [], _ :: _, h => nomatch h
  | _ :: _, [], h => nomatch h

/-- Soundness of `beqJFields`. -/
theorem eqJFields_of_beq :
    ∀ fs gs : List (String × JValue), beqJFields fs gs = true → fs = gs
  | [], [], _ => rfl
  | (k, v) :: fs, (k2, w) :: gs, h => by
      simp only [beqJFields, Bool.and_eq_true] at h
      have hk : k = k2 := by simpa using h.1.1
      have hv : v = w := JValue.eq_of_beq v w h.1.2
      rw [hk, hv, eqJFields_of_beq fs gs h.2]
  | [], _ :: _, h => nomatch h
  | _ :: _, [], h => nomatch h

end

mutual

/-- Reflexivity of `JValue.beq`. -/
theorem JValue.beq_refl : ∀ a : JValue, JValue.beq a a = true
  | .null => rfl
  | .bool a => by simp [JValue.beq]
  | .num a => by simp [JValue.beq]
  | .str a => by simp [JValue.beq]
  | .arr xs => beqJList_refl xs
  | .obj fs => beqJFields_refl fs

/-- Reflexivity of `beqJList`. -/
theorem beqJList_refl : ∀ xs : List JValue, beqJList xs xs = true
  | [] => rfl
  | x :: xs => by
      simp only [beqJList, Bool.and_eq_true]
      exact ⟨JValue.beq_refl x, beqJList_refl xs⟩

/-- Reflexivity of `beqJFields`. -/
theorem beqJFields_refl : ∀ fs : List (String × JValue), beqJFields fs fs = true
  | [] => rfl
  | (k, v) :: fs => by
      simp only [beqJFields, Bool.and_eq_true]
      exact ⟨⟨by simp, JValue.beq_refl v⟩, beqJFields_refl fs⟩

end

instance : DecidableEq JValue := fun a b =>
  decidable_of_iff (JValue.beq a b = true)
    ⟨JValue.eq_of_beq a b, fun h => h ▸ JValue.beq_refl a⟩

mutual

/-- Canonical form of a JSON value as `encoding/json` marshals a decoded
`interface{}`: every object has its keys in sorted order. -/
def JValue.canon : JValue → JValue
  | .null => .null
  | .bool b => .bool b
  | .num n => .num n
  | .str s => .str s
  | .arr xs => .arr (canonList xs)
  | .obj fs => .obj (sortKey (canonFields fs))

/-- Canonicalize every element of a JSON array. -/
def canonList : List JValue → List JValue
  | [] => []
  | x :: xs => x.canon :: canonList xs

/-- Canonicalize every value of a JSON object field list. -/
def canonFields : List (String × JValue) → List (String × JValue)
  | [] => []
  | (k, v) :: fs => (k, v.canon) :: canonFields fs

end

/-- Whitespace test used to model `strings.TrimSpace` and
`strings.Fields` (the program only ever meets ASCII whitespace). -/
def isWS (c : Char) : Bool :=
  c = ' ' || c = '\t' || c = '\r' || c = '\n'

/-- Trim modelling `strings.TrimSpace`, implemented over the character
list so that it evaluates inside the kernel. -/
def goTrim (s : String) : String :=
  ⟨((s.data.dropWhile isWS).reverse.dropWhile isWS).reverse⟩

/-- Accumulating splitter behind `strFields`; `acc` holds the current
field reversed. -/
def fieldsAux : List Char → List Char → List String
  | acc, [] => if acc = [] then [] else [⟨acc.reverse⟩]
  | acc, c :: cs =>
    if isWS c then
      if acc = [] then fieldsAux [] cs else ⟨acc.reverse⟩ :: fieldsAux [] cs
    else fieldsAux (c :: acc) cs

/-- Splitting a string around whitespace runs, modelling `strings.Fields`. -/
def strFields (s : String) : List String :=
  fieldsAux [] s.data

/-- Result of scanning a string with `fmt.Sscanf(s, "%d", &x)`: leading
whitespace is skipped, an optional sign and a nonempty digit run are read,
anything after the digits is ignored; `none` when no integer can be read
(Sscanf reports an error and leaves `x` at its zero value). -/
def sscanfD (s : String) : Option Int :=
  let cs := s.data.dropWhile isWS
  let signed : Bool × List Char :=
    match cs with
    | '-' :: t => (true, t)
    | '+' :: t => (false, t)
    | t => (false, t)
  let ds := signed.2.takeWhile (fun c => c.isDigit)
  if ds = [] then none
  else
    let n : Nat := ds.foldl (fun a c => a * 10 + (c.toNat - '0'.toNat)) 0
    some (if signed.1 then -(n : Int) else (n : Int))

/-- Value left in a zero-initialized `int` after `fmt.Sscanf(s, "%d", &x)`:
the scanned integer on success, `0` when scanning fails. -/
def sscanfIntOrZero (s : String) : Int :=
  (sscanfD s).getD 0

/-- One `promptString` interaction (src/prompt.go lines 10 to 25): read a
line, trim it, and substitute the default for a blank answer.  Returns the
value and the remaining input. -/
def promptString (defaultValue : String) : List String → String × List String
  | [] => (defaultValue, [])
  | line :: rest =>
    (if goTrim line = "" then defaultValue else goTrim line, rest)

/-- One `promptBool` interaction (src/prompt.go lines 27 to 43): a blank
answer yields the default, any other answer is true exactly when the
trimmed line is "y" or "Y". -/
def promptBool (defaultValue : Bool) : List String → Bool × List String
  | [] => (defaultValue, [])
  | line :: rest =>
    (if goTrim line = "" then defaultValue
     else (goTrim line = "y" || goTrim line = "Y"), rest)

/-- Modelled from the spec: the numeric-menu-choice reader `getMenuChoice`
is code of this repository that is not among the provided source files
(only its call sites appear, in the delete and set-default operations).
Per the spec it is a blocking reader that returns either a parsed
selection or a sentinel meaning blank/cancel; its call sites distinguish
`0` (blank line, cancel), `-1` (invalid or out-of-range selection,
"Invalid choice") and `1..max` (a valid selection).  It is modelled as
consuming one line: blank yields `0`, a line scanning as an integer inside
`1..max` yields that integer, anything else yields `-1`. -/
def getMenuChoice (max : Int) : List String → Int × List String
  | [] => (0, [])
  | line :: rest =>
    (if goTrim line = "" then 0
     else
       match sscanfD (goTrim line) with
       | some n => if 1 ≤ n ∧ n ≤ max then n else -1
       | none => -1, rest)

example : sscanfD "128000" = some 128000 := by decide
example : sscanfD "abc" = none := by decide
example : sscanfD "12abc" = some 12 := by decide
example : sscanfD " -7" = some (-7) := by decide
example : strFields "-y @modelcontextprotocol/server-everything" =
    ["-y", "@modelcontextprotocol/server-everything"] := by decide
example : (promptBool false ["yes"]).1 = false := by decide
example : (promptBool true [" "]).1 = true := by decide
example : sortKey [("b", 1), ("a", 2)] = [("a", 2), ("b", 1)] := by decide
example : setKey [("a", 1), ("c", 3)] "b" 2 = [("a", 1), ("b", 2), ("c", 3)] := by decide
example : (getMenuChoice 2 ["5"]).1 = -1 := by decide
example : goTrim "  yes " = "yes" := by decide

/-- Token-limit pair of a model (src/types.go lines 26 to 29); both fields
marshal under `omitempty`, so a zero is omitted from the file. -/
structure ModelLimit where
  context : Int
  output : Int
deriving DecidableEq

/-- A model under a provider (src/types.go lines 20 to 24). -/
structure Model where
  name : String
  id : String
  limit : Option ModelLimit
deriving DecidableEq

/-- A provider entry (src/types.go lines 13 to 18).  `options` is the open
`map[string]interface{}` bag and `models` the keyed model collection; both
marshal without `omitempty`, and both can be nil after decoding, so they
are `Option`-valued. -/
structure Provider where
  npm : String
  name : String
  options : Option (List (String × JValue))
  models : Option (List (String × Model))
deriving DecidableEq

/-- An MCP server entry (src/types.go lines 31 to 40).  All collection
fields sit under `omitempty` and are only read through `len`, so their
nil/empty distinction is dropped; `enabled` and `timeout` are nilable
pointers. -/
structure MCPServer where
  type : String
  command : List String
  environment : List (String × String)
  url : String
  headers : List (String × String)
  oauth : List (String × JValue)
  enabled : Option Bool
  timeout : Option Int
deriving DecidableEq

/-- The root configuration document (src/types.go lines 3 to 11).
`provider` marshals without `omitempty` and `mcp` with it; both are maps
that the program can observe as nil (writing into a nil map panics), so
both are `Option`-valued in memory. -/
structure Config where
  schema : String
  provider : Option (List (String × Provider))
  model : String
  smallModel : String
  enabledProviders : List String
  disabledProviders : List String
  mcp : Option (List (String × MCPServer))
deriving DecidableEq

/-- Schema marker constant from `loadConfig` (src/config.go line 19). -/
def schemaMarker : String := "https://opencode.ai/config.json"

/-- Marshal a `ModelLimit`: both fields are tagged `omitempty`, so zeros
vanish. -/
def marshalLimit (l : ModelLimit) : JValue :=
  .obj ((if l.context ≠ 0 then [("context", JValue.num l.context)] else []) ++
        (if l.output ≠ 0 then [("output", JValue.num l.output)] else []))

/-- Marshal a `Model` (struct fields in declaration order; `id` and
`limit` are `omitempty`). -/
def marshalModel (m : Model) : JValue :=
  .obj ([("name", JValue.str m.name)] ++
        (if m.id ≠ "" then [("id", JValue.str m.id)] else []) ++
        (match m.limit with
         | some l => [("limit", marshalLimit l)]
         | none => []))

/-- Marshal a string-valued Go map: sorted keys, string values. -/
def marshalStrMap (l : List (String × String)) : JValue :=
  .obj (sortKey (mapVal JValue.str l))

/-- Marshal an `interface{}`-valued Go map (`options`, `oauth`): sorted
keys and recursively canonicalized values. -/
def marshalJMap (l : List (String × JValue)) : List (String × JValue) :=
  sortKey (mapVal JValue.canon l)

/-- Marshal a `Provider`; a nil `options` or `models` map marshals as
JSON null (no `omitempty` on these fields). -/
def marshalProvider (p : Provider) : JValue :=
  .obj [("npm", JValue.str p.npm),
        ("name", JValue.str p.name),
        ("options", match p.options with
                    | none => JValue.null
                    | some fs => .obj (marshalJMap fs)),
        ("models", match p.models with
                   | none => JValue.null
                   | some ms => .obj (sortKey (mapVal marshalModel ms)))]

/-- Marshal an `MCPServer`: `type` always, every other field under
`omitempty` (empty collections and nil pointers vanish). -/
def marshalMCP (s : MCPServer) : JValue :=
  .obj ([("type", JValue.str s.type)] ++
        (if s.command ≠ [] then [("command", JValue.arr (s.command.map JValue.str))] else []) ++
        (if s.environment ≠ [] then [("environment", marshalStrMap s.environment)] else []) ++
        (if s.url ≠ "" then [("url", JValue.str s.url)] else []) ++
        (if s.headers ≠ [] then [("headers", marshalStrMap s.headers)] else []) ++
        (if s.oauth ≠ [] then [("oauth", JValue.obj (marshalJMap s.oauth))] else []) ++
        (match s.enabled with
         | some b => [("enabled", JValue.bool b)]
         | none => []) ++
        (match s.timeout with
         | some t => [("timeout", JValue.num t)]
         | none => []))

/-- Marshal a `Config`, the document `saveConfig` (src/config.go lines 46
to 53) writes with `json.MarshalIndent`: struct fields in declaration
order, `$schema` and `provider` always present (a nil provider map
marshals as null), the remaining fields under `omitempty`.  Byte identity
of the written file is equivalent to equality of this tree, since the
indentation is fixed. -/
def marshalConfig (c : Config) : JValue :=
  .obj ([("$schema", JValue.str c.schema)] ++
        [("provider", match c.provider with
                      | none => JValue.null
                      | some ps => .obj (sortKey (mapVal marshalProvider ps)))] ++
        (if c.model ≠ "" then [("model", JValue.str c.model)] else []) ++
        (if c.smallModel ≠ "" then [("small_model", JValue.str c.smallModel)] else []) ++
        (if c.enabledProviders ≠ [] then
          [("enabled_providers", JValue.arr (c.enabledProviders.map JValue.str))] else []) ++
        (if c.disabledProviders ≠ [] then
          [("disabled_providers", JValue.arr (c.disabledProviders.map JValue.str))] else []) ++
        (match c.mcp with
         | none => []
         | some ms => if ms = [] then []
                      else [("mcp", JValue.obj (sortKey (mapVal marshalMCP ms)))]))

/-- Decode a string-typed struct field from an optional JSON field value:
absent and null leave the current (pre-initialized or zero) value in
place, a JSON string overwrites it, any other shape is a decoding error
(`json.Unmarshal` reports a type error, which `loadConfig` propagates). -/
def decodeStrField (j : Option JValue) (cur : String) : Option String :=
  match j with
  | none => some cur
  | some .null => some cur
  | some (.str s) => some s
  | some _ => none

/-- Decode an int-typed struct field (zero value `0` kept on absent or
null). -/
def decodeIntField (j : Option JValue) (cur : Int) : Option Int :=
  match j with
  | none => some cur
  | some .null => some cur
  | some (.num n) => some n
  | some _ => none

/-- Decode the entries of a JSON object into map entries through a value
decoder, keeping document order. -/
def decodeEntries {α : Type} (f : JValue → Option α) :
    List (String × JValue) → Option (List (String × α))
  | [] => some []
  | (k, j) :: rest =>
    match f j, decodeEntries f rest with
    | some v, some vs => some ((k, v) :: vs)
    | _, _ => none

/-- Decode a JSON array of strings (`[]string`). -/
def decodeStrList : List JValue → Option (List String)
  | [] => some []
  | .str s :: rest =>
    match decodeStrList rest with
    | some ss => some (s :: ss)
    | none => none
  | _ :: _ => none

/-- Decode a `map[string]string` value. -/
def decodeStrMap (j : JValue) : Option (List (String × String)) :=
  match j with
  | .obj fs => decodeEntries (fun v => match v with
                                       | .str s => some s
                                       | _ => none) fs
  | _ => none

/-- Decode a `ModelLimit` object. -/
def decodeLimit (j : JValue) : Option ModelLimit :=
  match j with
  | .obj fs =>
    match decodeIntField (getKey fs "context") 0, decodeIntField (getKey fs "output") 0 with
    | some c, some o => some { context := c, output := o }
    | _, _ => none
  | _ => none

/-- Decode the optional `limit` pointer field of a model: absent and
null leave the nil pointer, an object decodes into a fresh value. -/
def decodeLimitField (j : Option JValue) : Option (Option ModelLimit) :=
  match j with
  | none => some none
  | some .null => some none
  | some j2 => (decodeLimit j2).map some

/-- Decode a `Model` object. -/
def decodeModel (j : JValue) : Option Model :=
  match j with
  | .obj fs =>
    match decodeStrField (getKey fs "name") "",
          decodeStrField (getKey fs "id") "",
          decodeLimitField (getKey fs "limit") with
    | some name, some id, some limit => some { name := name, id := id, limit := limit }
    | _, _, _ => none
  | _ => none

/-- Decode an `interface{}`-valued map field that can be nil (provider
`options`). -/
def decodeOptJMapField (j : Option JValue) : Option (Option (List (String × JValue))) :=
  match j with
  | none => some none
  | some .null => some none
  | some (.obj gs) => some (some gs)
  | some _ => none

/-- Decode the nilable `models` map field of a provider. -/
def decodeModelsField (j : Option JValue) : Option (Option (List (String × Model))) :=
  match j with
  | none => some none
  | some .null => some none
  | some (.obj gs) => (decodeEntries decodeModel gs).map some
  | some _ => none

/-- Decode a `Provider` object; a missing or null `options`/`models`
field leaves the map nil. -/
def decodeProvider (j : JValue) : Option Provider :=
  match j with
  | .obj fs =>
    match decodeStrField (getKey fs "npm") "",
          decodeStrField (getKey fs "name") "",
          decodeOptJMapField (getKey fs "options"),
          decodeModelsField (getKey fs "models") with
    | some npm, some name, some opts, some ms =>
      some { npm := npm, name := name, options := opts, models := ms }
    | _, _, _, _ => none
  | _ => none

/-- Decode a `[]string` field under `omitempty` (absent or null is the
empty slice). -/
def decodeStrListField (j : Option JValue) : Option (List String) :=
  match j with
  | none => some []
  | some .null => some []
  | some (.arr xs) => decodeStrList xs
  | some _ => none

/-- Decode a `map[string]string` field under `omitempty`. -/
def decodeStrMapField (j : Option JValue) : Option (List (String × String)) :=
  match j with
  | none => some []
  | some .null => some []
  | some j2 => decodeStrMap j2

/-- Decode an `interface{}`-valued map field under `omitempty`
(`oauth`). -/
def decodeJMapField (j : Option JValue) : Option (List (String × JValue)) :=
  match j with
  | none => some []
  | some .null => some []
  | some (.obj gs) => some gs
  | some _ => none

/-- Decode a `*bool` field (`enabled`). -/
def decodeBoolPtrField (j : Option JValue) : Option (Option Bool) :=
  match j with
  | none => some none
  | some .null => some none
  | some (.bool b) => some (some b)
  | some _ => none

/-- Decode a `*int` field (`timeout`). -/
def decodeIntPtrField (j : Option JValue) : Option (Option Int) :=
  match j with
  | none => some none
  | some .null => some none
  | some (.num n) => some (some n)
  | some _ => none

/-- Decode an `MCPServer` object. -/
def decodeMCP (j : JValue) : Option MCPServer :=
  match j with
  | .obj fs =>
    match decodeStrField (getKey fs "type") "",
          decodeStrListField (getKey fs "command"),
          decodeStrMapField (getKey fs "environment"),
          decodeStrField (getKey fs "url") "" with
    | some ty, some cmd, some env, some url =>
      match decodeStrMapField (getKey fs "headers"),
            decodeJMapField (getKey fs "oauth"),
            decodeBoolPtrField (getKey fs "enabled"),
            decodeIntPtrField (getKey fs "timeout") with
      | some hd, some oa, some en, some tm =>
        some { type := ty, command := cmd, environment := env, url := url,
               headers := hd, oauth := oa, enabled := en, timeout := tm }
      | _, _, _, _ => none
    | _, _, _, _ => none
  | _ => none

/-- Decode the `provider` map of the root document: the target struct is
pre-initialized with an empty non-nil map, so an absent key keeps that
empty map while explicit null makes it nil. -/
def decodeProvidersField (j : Option JValue) : Option (Option (List (String × Provider))) :=
  match j with
  | none => some (some [])
  | some .null => some none
  | some (.obj gs) => (decodeEntries decodeProvider gs).map some
  | some _ => none

/-- Decode the nilable `mcp` map of the root document (not
pre-initialized: absent leaves it nil). -/
def decodeMCPMapField (j : Option JValue) : Option (Option (List (String × MCPServer))) :=
  match j with
  | none => some none
  | some .null => some none
  | some (.obj gs) => (decodeEntries decodeMCP gs).map some
  | some _ => none

/-- Decode a whole document, modelling the `json.Unmarshal(data, config)`
call inside `loadConfig` (src/config.go line 31): the target struct is
pre-initialized with the schema marker and an empty (non-nil) provider
map, so an absent `$schema` keeps the marker and an absent `provider`
keeps the empty map, while an explicit JSON null sets a map field to
nil. -/
def decodeConfig (j : JValue) : Option Config :=
  match j with
  | .obj fs =>
    match decodeStrField (getKey fs "$schema") schemaMarker,
          decodeProvidersField (getKey fs "provider"),
          decodeStrField (getKey fs "model") "",
          decodeStrField (getKey fs "small_model") "" with
    | some sc, some pv, some md, some sm =>
      match decodeStrListField (getKey fs "enabled_providers"),
            decodeStrListField (getKey fs "disabled_providers"),
            decodeMCPMapField (getKey fs "mcp") with
      | some ep, some dp, some mc =>
        some { schema := sc, provider := pv, model := md, smallModel := sm,
               enabledProviders := ep, disabledProviders := dp, mcp := mc }
      | _, _, _ => none
    | _, _, _, _ => none
  | _ => none

/-- Load a configuration, embedding `loadConfig` (src/config.go lines 17
to 44).  The input is the state of the file at the configured path:
`none` when no file exists, `some j` when the file exists and parses as
the JSON document `j` (a file whose bytes are not valid JSON is outside
the model; `loadConfig` propagates the parse error for such a file).  On
a missing file, the pre-initialized configuration is returned as is —
note that its `mcp` map is nil, since only `schema` and `provider` are
pre-initialized.  After a successful decode, a nil `provider` or `mcp`
map is replaced by an empty one. -/
def loadConfig (file : Option JValue) : Except Unit Config :=
  match file with
  | none =>
    .ok { schema := schemaMarker, provider := some [], model := "",
          smallModel := "", enabledProviders := [], disabledProviders := [],
          mcp := none }
  | some j =>
    match decodeConfig j with
    | none => .error ()
    | some c =>
      .ok { c with
            provider := match c.provider with
                        | none => some []
                        | some ps => some ps,
            mcp := match c.mcp with
                   | none => some []
                   | some ms => some ms }

/-- Save a configuration, embedding `saveConfig` (src/config.go lines 46
to 53): the file contents after the write are the marshalled document. -/
def saveConfig (c : Config) : JValue :=
  marshalConfig c

/-- Outcome of one interactive operation: the configuration handed to
`saveConfig` (`none` when the operation returned without writing the
file), the diagnostic messages the claims mention, and whether the run
hit a Go runtime panic (assignment to an entry in a nil map). -/
structure OpResult where
  saved : Option Config
  notices : List String
  panicked : Bool
deriving DecidableEq

/-- Name/value collection loop shared verbatim by the custom-header loops
of addProvider and addMCPServer and the environment-variable loop of
addMCPServer: prompt for a name (blank stops), prompt for a value (kept
only when non-blank), then ask whether to add another.  The recursion is
driven by a fuel argument always instantiated with the length of the
remaining input; every iteration consumes at least one line, so the fuel
cannot run out before the input does, and the fuel-exhausted branch
behaves like the blank-line exit on an exhausted input. -/
def kvLoop (fuel : Nat) (acc : List (String × String)) (input : List String) :
    List (String × String) × List String :=
  match fuel with
  | 0 => (acc, input)
  | fuel + 1 =>
    let rName := promptString "" input
    if rName.1 = "" then (acc, rName.2)
    else
      let rVal := promptString "" rName.2
      let acc2 := if rVal.1 ≠ "" then setKey acc rName.1 rVal.1 else acc
      let rMore := promptBool false rVal.2
      if rMore.1 then kvLoop fuel acc2 rMore.2 else (acc2, rMore.2)

/-- Token-limit value built by the limit blocks of addProvider and
addModel: when at least one of the two answers is non-blank, a limit
record is attached whose fields hold the Sscanf results of the non-blank
answers (a failed scan leaves the zero value). -/
def buildLimit (contextLimit outputLimit : String) : Option ModelLimit :=
  if contextLimit ≠ "" ∨ outputLimit ≠ "" then
    some { context := if contextLimit ≠ "" then sscanfIntOrZero contextLimit else 0,
           output := if outputLimit ≠ "" then sscanfIntOrZero outputLimit else 0 }
  else none

/-- Prompt pair for the two token limits (context, then output). -/
def promptLimits (input : List String) : Option ModelLimit × List String :=
  let rCtx := promptString "" input
  let rOut := promptString "" rCtx.2
  (buildLimit rCtx.1 rOut.1, rOut.2)

/-- Model-entry loop of addProvider (provider.go): prompt for a model id
(blank stops), a display name defaulting to the id, an optional limit
block, then ask whether to add another.  Fuel as in `kvLoop`. -/
def modelLoop (fuel : Nat) (acc : List (String × Model)) (input : List String) :
    List (String × Model) × List String :=
  match fuel with
  | 0 => (acc, input)
  | fuel + 1 =>
    let rID := promptString "" input
    if rID.1 = "" then (acc, rID.2)
    else
      let rName := promptString rID.1 rID.2
      let rCfg := promptBool false rName.2
      let rLim : Option ModelLimit × List String :=
        if rCfg.1 then promptLimits rCfg.2 else (none, rCfg.2)
      let acc2 := setKey acc rID.1 { name := rName.1, id := "", limit := rLim.1 }
      let rMore := promptBool false rLim.2
      if rMore.1 then modelLoop fuel acc2 rMore.2 else (acc2, rMore.2)

/-- Embeds `getFirstModelID` (provider.go): `for id := range models`
returns whichever key the runtime enumeration yields first; the
enumeration order is unspecified, so it is the explicit argument here
(a permutation of the keys of the models map). -/
def getFirstModelID (rangeOrder : List String) : String :=
  match rangeOrder with
  | [] => ""
  | id :: _ => id

/-- Embeds the default-model step closing addProvider (provider.go lines
107 to 109): when at least one model was added and the user opted in, the
default model becomes `providerKey/<first enumerated model id>`. -/
def applyDefaultModel (cfg : Config) (providerKey : String)
    (models : List (String × Model)) (rangeOrder : List String) (optIn : Bool) : Config :=
  if models.length > 0 ∧ optIn then
    { cfg with model := providerKey ++ "/" ++ getFirstModelID rangeOrder }
  else cfg

/-- Embeds the map write `config.Provider[providerKey] = provider`;
writing into a nil map is a Go runtime panic, signalled by `none`. -/
def insertProvider (cfg : Config) (key : String) (prov : Provider) : Option Config :=
  match cfg.provider with
  | none => none
  | some ps => some { cfg with provider := some (setKey ps key prov) }

/-- Embeds addProvider, the `add` command (provider.go lines 10 to 122;
an older revision of the same function is src/main.go lines 131 to 244 —
it differs only in the default-model condition, see the C3 theorems).
The operation runs from the `loadConfig` call onward: path resolution and
the MkdirAll prologue are filesystem plumbing outside the model.  In Go
the provider struct is stored into the map before the model loop and the
loop then mutates the shared underlying models map, so the stored entry
carries the final models; here the store happens once with the final
map.  `rangeOrder` is the unspecified order in which the runtime
enumerates the freshly built models map inside `getFirstModelID`. -/
def addProvider (rangeOrder : List String) (cfg : Config) (input : List String) : OpResult :=
  let rKey := promptString "custom" input
  let rName := promptString "Custom Provider" rKey.2
  let rURL := promptString "http://localhost:11434/v1" rName.2
  let rAPI := promptString "" rURL.2
  let options0 : List (String × JValue) := [("baseURL", JValue.str rURL.1)]
  let options1 := if rAPI.1 ≠ "" then setKey options0 "apiKey" (JValue.str rAPI.1) else options0
  let rHdr := promptBool false rAPI.2
  let hdrs := if rHdr.1 then kvLoop rHdr.2.length [] rHdr.2 else ([], rHdr.2)
  let options2 :=
    if rHdr.1 ∧ hdrs.1 ≠ [] then
      setKey options1 "headers" (JValue.obj (mapVal JValue.str hdrs.1))
    else options1
  let ms := modelLoop hdrs.2.length [] hdrs.2
  let prov : Provider := { npm := "@ai-sdk/openai-compatible", name := rName.1,
                           options := some options2, models := some ms.1 }
  match insertProvider cfg rKey.1 prov with
  | none => { saved := none, notices := [], panicked := true }
  | some cfg1 =>
    let rDef : Bool × List String :=
      if ms.1.length > 0 then promptBool false ms.2 else (false, ms.2)
    let cfg2 := applyDefaultModel cfg1 rKey.1 ms.1 rangeOrder rDef.1
    { saved := some cfg2, notices := [], panicked := false }

/-- Embeds addModel, the `add-model` command (part_001 lines 398 to 500):
provider selection by listed number or literal key, model entry with
optional limits, overwrite confirmation for an existing model id, an
optional default-model update, then save.  `provOrder` is the runtime
enumeration order of the provider map used for the numbered listing. -/
def addModel (provOrder : List String) (cfg : Config) (input : List String) : OpResult :=
  let ps := cfg.provider.getD []
  if ps.length = 0 then
    { saved := none, notices := ["No providers configured. Use \x27add\x27 command first."],
      panicked := false }
  else
    let rSel := promptString "" input
    if rSel.1 = "" then { saved := none, notices := ["Cancelled"], panicked := false }
    else
      let providerKey :=
        match sscanfD rSel.1 with
        | some n => if 1 ≤ n ∧ n ≤ (provOrder.length : Int) then
                      provOrder.getD (n.toNat - 1) ""
                    else rSel.1
        | none => rSel.1
      match getKey ps providerKey with
      | none =>
        { saved := none,
          notices := ["Provider \x27" ++ providerKey ++ "\x27 not found"], panicked := false }
      | some prov =>
        let rID := promptString "" rSel.2
        if rID.1 = "" then { saved := none, notices := ["Cancelled"], panicked := false }
        else
          let rName := promptString rID.1 rID.2
          let rCfg := promptBool false rName.2
          let rLim : Option ModelLimit × List String :=
            if rCfg.1 then promptLimits rCfg.2 else (none, rCfg.2)
          let model : Model := { name := rName.1, id := "", limit := rLim.1 }
          let rOver : Bool × List String :=
            if hasKey (prov.models.getD []) rID.1 then promptBool false rLim.2
            else (true, rLim.2)
          if rOver.1 = false then
            { saved := none, notices := ["Cancelled"], panicked := false }
          else
            match prov.models with
            | none => { saved := none, notices := [], panicked := true }
            | some ms =>
              let prov2 := { prov with models := some (setKey ms rID.1 model) }
              let cfg1 := { cfg with provider := some (setKey ps providerKey prov2) }
              let rDef := promptBool false rOver.2
              let cfg2 :=
                if rDef.1 then { cfg1 with model := providerKey ++ "/" ++ rID.1 } else cfg1
              { saved := some cfg2, notices := [], panicked := false }

/-- Embeds the deleteProvider revision of src/main.go lines 310 to 362
(`delete` command): the provider key is typed literally; a blank entry
cancels, an unknown key reports not-found, otherwise the entry is removed
and the file saved.  The default-model field is never touched. -/
def deleteProviderKeyed (cfg : Config) (input : List String) : OpResult :=
  let ps := cfg.provider.getD []
  if ps.length = 0 then
    { saved := none, notices := ["No providers to delete"], panicked := false }
  else
    let rKey := promptString "" input
    if rKey.1 = "" then { saved := none, notices := ["Cancelled"], panicked := false }
    else if hasKey ps rKey.1 = false then
      { saved := none, notices := ["Provider \x27" ++ rKey.1 ++ "\x27 not found"],
        panicked := false }
    else
      { saved := some { cfg with provider := some (delKey ps rKey.1) },
        notices := [], panicked := false }

/-- Embeds the current deleteProvider (provider.go lines 195 to 253):
numbered menu selection through `getMenuChoice` plus a yes/no
confirmation.  `keysOrder` is the runtime enumeration order of the
provider map used for the numbered listing. -/
def deleteProvider (keysOrder : List String) (cfg : Config) (input : List String) : OpResult :=
  let ps := cfg.provider.getD []
  if ps.length = 0 then
    { saved := none, notices := ["No providers to delete"], panicked := false }
  else
    let rc := getMenuChoice (ps.length : Int) input
    if rc.1 = -1 then { saved := none, notices := ["Invalid choice"], panicked := false }
    else if rc.1 = 0 then { saved := none, notices := ["Cancelled"], panicked := false }
    else
      let keyToDelete := keysOrder.getD (rc.1.toNat - 1) ""
      let rConf := promptBool false rc.2
      if rConf.1 = false then { saved := none, notices := ["Cancelled"], panicked := false }
      else
        { saved := some { cfg with provider := some (delKey ps keyToDelete) },
          notices := [], panicked := false }

/-- Tail of deleteModel after the confirmation (part_001 lines 334 to
345, identically src/main.go lines 455 to 461): remove the model, clear
the default-model field with a warning when it referenced exactly the
deleted `providerKey/modelID`, then save. -/
def deleteModelFinish (cfg : Config) (ps : List (String × Provider)) (prov : Provider)
    (ms : List (String × Model)) (providerKey modelID : String) : OpResult :=
  let prov2 := { prov with models := some (delKey ms modelID) }
  let cfg1 := { cfg with provider := some (setKey ps providerKey prov2) }
  if cfg.model = providerKey ++ "/" ++ modelID then
    { saved := some { cfg1 with model := "" },
      notices := ["Warning: This was the default model. Default model cleared."],
      panicked := false }
  else
    { saved := some cfg1, notices := [], panicked := false }

/-- Embeds deleteModel, the `delete-model` command (part_001 lines 248 to
345): two-level selection — provider by number or key, model by menu
choice — then confirmation and `deleteModelFinish`.  `provOrder` and
`modelOrder` are the runtime enumeration orders behind the two numbered
listings. -/
def deleteModel (provOrder modelOrder : List String) (cfg : Config)
    (input : List String) : OpResult :=
  let ps := cfg.provider.getD []
  if ps.length = 0 then
    { saved := none, notices := ["No providers configured. Use \x27add\x27 command first."],
      panicked := false }
  else
    let rSel := promptString "" input
    if rSel.1 = "" then { saved := none, notices := ["Cancelled"], panicked := false }
    else
      let providerKey :=
        match sscanfD rSel.1 with
        | some n => if 1 ≤ n ∧ n ≤ (provOrder.length : Int) then
                      provOrder.getD (n.toNat - 1) ""
                    else rSel.1
        | none => rSel.1
      match getKey ps providerKey with
      | none =>
        { saved := none,
          notices := ["Provider \x27" ++ providerKey ++ "\x27 not found"], panicked := false }
      | some prov =>
        let ms := prov.models.getD []
        if ms.length = 0 then
          { saved := none,
            notices := ["Provider \x27" ++ prov.name ++ "\x27 has no models to delete"],
            panicked := false }
        else
          let rc := getMenuChoice (ms.length : Int) rSel.2
          if rc.1 = -1 then { saved := none, notices := ["Invalid choice"], panicked := false }
          else if rc.1 = 0 then { saved := none, notices := ["Cancelled"], panicked := false }
          else
            let modelID := modelOrder.getD (rc.1.toNat - 1) ""
            if hasKey ms modelID = false then
              { saved := none, notices := ["Model \x27" ++ modelID ++ "\x27 not found"],
                panicked := false }
            else
              let rConf := promptBool false rc.2
              if rConf.1 = false then
                { saved := none, notices := ["Cancelled"], panicked := false }
              else
                deleteModelFinish cfg ps prov ms providerKey modelID

/-- Extra-argument loop of the local branch of addMCPServer (part_000
lines 75 to 83): ask whether to add another argument; if yes, read one
and append it when non-blank.  Fuel as in `kvLoop`. -/
def extraArgLoop (fuel : Nat) (cmdArray : List String) (input : List String) :
    List String × List String :=
  match fuel with
  | 0 => (cmdArray, input)
  | fuel + 1 =>
    let rMore := promptBool false input
    if rMore.1 = false then (cmdArray, rMore.2)
    else
      let rArg := promptString "" rMore.2
      extraArgLoop fuel (if rArg.1 ≠ "" then cmdArray ++ [rArg.1] else cmdArray) rArg.2

/-- OAuth block of the remote branch of addMCPServer (part_000 lines 135
to 152): clientId, clientSecret and scope prompts, each kept only when
non-blank. -/
def oauthBlock (input : List String) : List (String × JValue) × List String :=
  let rId := promptString "" input
  let o1 := if rId.1 ≠ "" then setKey [] "clientId" (JValue.str rId.1) else []
  let rSec := promptString "" rId.2
  let o2 := if rSec.1 ≠ "" then setKey o1 "clientSecret" (JValue.str rSec.1) else o1
  let rSc := promptString "" rSec.2
  let o3 := if rSc.1 ≠ "" then setKey o2 "scope" (JValue.str rSc.1) else o2
  (o3, rSc.2)

/-- Embeds the enable-on-startup step of addMCPServer (part_000 lines 155
to 158, identically src/main.go lines 663 to 666): `enabled :=
promptBool("Enable server on startup?", true); if !enabled {
mcpServer.Enabled = &enabled }` — the field is written only on an
explicit decline. -/
def applyEnabled (server : MCPServer) (enabled : Bool) : MCPServer :=
  if enabled then server else { server with enabled := some false }

/-- Timeout value of addMCPServer (part_000 lines 160 to 167): inside the
opt-in branch, a non-blank answer is scanned with Sscanf `%d` into a
zero-initialized int whose address is stored; a blank answer stores
nothing. -/
def applyTimeout (tstr : String) : Option Int :=
  if tstr ≠ "" then some (sscanfIntOrZero tstr) else none

/-- Common tail of addMCPServer (part_000 lines 155 to 176): the
enable-on-startup prompt, the optional timeout prompt, the map write
`config.MCP[serverName] = mcpServer` (a panic when the mcp map is nil),
and the save. -/
def finishMCP (cfg : Config) (serverName : String) (server0 : MCPServer)
    (input : List String) : OpResult :=
  let rEn := promptBool true input
  let server1 := applyEnabled server0 rEn.1
  let rTq := promptBool false rEn.2
  let withTimeout : MCPServer × List String :=
    if rTq.1 then
      let rT := promptString "" rTq.2
      ({ server1 with timeout := applyTimeout rT.1 }, rT.2)
    else (server1, rTq.2)
  match cfg.mcp with
  | none => { saved := none, notices := [], panicked := true }
  | some ms =>
    { saved := some { cfg with mcp := some (setKey ms serverName withTimeout.1) },
      notices := [], panicked := false }

/-- Embeds addMCPServer, the `add-mcp` command (part_000 lines 10 to 180;
an older revision is src/main.go lines 525 to 705).  Blank server name
cancels; an existing name requires overwrite confirmation; type 2 selects
a remote server, anything else local; a remote server with a blank URL
aborts with a message and no write. -/
def addMCPServer (cfg : Config) (input : List String) : OpResult :=
  let rName := promptString "" input
  if rName.1 = "" then { saved := none, notices := ["Cancelled"], panicked := false }
  else
    let rOver : Bool × List String :=
      if hasKey (cfg.mcp.getD []) rName.1 then promptBool false rName.2
      else (true, rName.2)
    if rOver.1 = false then { saved := none, notices := ["Cancelled"], panicked := false }
    else
      let rType := promptString "1" rOver.2
      let serverType := if rType.1 = "2" then "remote" else "local"
      if serverType = "local" then
        let rCmd := promptString "npx" rType.2
        let rArgs := promptString "" rCmd.2
        let cmdArray0 := [rCmd.1] ++ (if rArgs.1 ≠ "" then strFields rArgs.1 else [])
        let cmdFinal := extraArgLoop rArgs.2.length cmdArray0 rArgs.2
        let rEnv := promptBool false cmdFinal.2
        let env := if rEnv.1 then kvLoop rEnv.2.length [] rEnv.2 else ([], rEnv.2)
        let server : MCPServer :=
          { type := serverType, command := cmdFinal.1,
            environment := if rEnv.1 ∧ env.1 ≠ [] then env.1 else [],
            url := "", headers := [], oauth := [], enabled := none, timeout := none }
        finishMCP cfg rName.1 server env.2
      else
        let rURL := promptString "" rType.2
        if rURL.1 = "" then
          { saved := none, notices := ["URL is required for remote servers"],
            panicked := false }
        else
          let rHdr := promptBool false rURL.2
          let hdrs := if rHdr.1 then kvLoop rHdr.2.length [] rHdr.2 else ([], rHdr.2)
          let rOAuth := promptBool false hdrs.2
          let oauth := if rOAuth.1 then oauthBlock rOAuth.2 else ([], rOAuth.2)
          let server : MCPServer :=
            { type := serverType, command := [], environment := [], url := rURL.1,
              headers := if rHdr.1 ∧ hdrs.1 ≠ [] then hdrs.1 else [],
              oauth := if rOAuth.1 ∧ oauth.1 ≠ [] then oauth.1 else [],
              enabled := none, timeout := none }
          finishMCP cfg rName.1 server oauth.2

/-- Effective status string that listMCPServers (part_000 lines 204 to
209) renders for a server: "disabled" only when `Enabled` points at
false; a nil (absent) field renders "enabled". -/
def mcpStatus (s : MCPServer) : String :=
  match s.enabled with
  | none => "enabled"
  | some true => "enabled"
  | some false => "disabled"

/-- Name/status pairs of the listMCPServers rendering (part_000 lines 200
to 209); the rest of the per-server block is display text outside the
claims. -/
def listMCPServersStatuses (cfg : Config) : List (String × String) :=
  (cfg.mcp.getD []).map (fun p => (p.1, mcpStatus p.2))

/-- Status line of the older listMCPServers revision (src/main.go lines
713 to 720), kept for comparison: there a status is printed only when the
`enabled` field is present, so a server with the field absent gets no
status line at all. -/
def mcpStatusLineLegacy (s : MCPServer) : Option String :=
  match s.enabled with
  | none => none
  | some true => some "enabled"
  | some false => some "disabled"

/-- Limit annotation that listProviders (provider.go lines 158 to 165)
appends after a model: only strictly positive fields are shown, so a zero
limit renders as not set. -/
def limitSuffix (l : ModelLimit) : String :=
  (if l.context > 0 then " [context: " ++ toString l.context ++ "]" else "") ++
  (if l.output > 0 then " [output: " ++ toString l.output ++ "]" else "")

/-- Default-model condition of the older addProvider revision
(src/main.go lines 230 to 232): there the default is also set without
asking whenever no default was configured yet —
`len(provider.Models) > 0 && (config.Model == "" || promptBool(...))`. -/
def applyDefaultModelLegacy (cfg : Config) (providerKey : String)
    (models : List (String × Model)) (rangeOrder : List String) (optIn : Bool) : Config :=
  if models.length > 0 ∧ (cfg.model = "" ∨ optIn) then
    { cfg with model := providerKey ++ "/" ++ getFirstModelID rangeOrder }
  else cfg

/-- Fresh configuration returned by `loadConfig` for a missing file: note
the nil `mcp` map — only `schema` and `provider` are pre-initialized, and
the not-exist early return skips the nil-map normalization. -/
def freshConfig : Config :=
  { schema := schemaMarker, provider := some [], model := "", smallModel := "",
    enabledProviders := [], disabledProviders := [], mcp := none }

/-- C1.  The claim is refuted on the missing-file path: `loadConfig`
pre-initializes only `schema` and `provider` before touching the file and
returns early on a not-exist error, so loading a nonexistent path yields a
configuration whose `mcpServers` map is nil, not an empty map (first
conjunct); a subsequent add-mcp run on that very configuration panics on
the write into the nil map (last conjunct), which is how the program
observes the difference.  Loading alone reads the file and never creates
one, and the claimed normalization does hold for existing documents: both
for one with the collections absent and for one with them explicitly null,
the loaded configuration carries empty non-nil maps (middle conjuncts). -/
theorem loadConfig_missing_file_mcp_nil :
    loadConfig none = .ok freshConfig ∧
    freshConfig.mcp = none ∧
    freshConfig.provider = some [] ∧
    freshConfig.schema = schemaMarker ∧
    loadConfig (some (.obj [])) =
      .ok { freshConfig with mcp := some [] } ∧
    loadConfig (some (.obj [("provider", .null), ("mcp", .null)])) =
      .ok { freshConfig with mcp := some [] } ∧
    (addMCPServer freshConfig ["srv", "1", "c", "", "n", "n", "y", "n"]).panicked = true ∧
    (addMCPServer freshConfig ["srv", "1", "c", "", "n", "n", "y", "n"]).saved = none :=
  ⟨rfl, rfl, rfl, rfl, rfl, rfl, by decide, by decide⟩

/-- Sample provider with a single model, used by concrete runs below. -/
def provC10 : Provider :=
  { npm := "@ai-sdk/openai-compatible", name := "P",
    options := some [("baseURL", JValue.str "http://localhost:11434/v1")],
    models := some [("m", { name := "M", id := "", limit := none })] }

/-- Sample loaded configuration with one provider and one model. -/
def cfgC10 : Config :=
  { schema := schemaMarker, provider := some [("p", provC10)], model := "",
    smallModel := "", enabledProviders := [], disabledProviders := [], mcp := some [] }

/-- C10.  `promptBool` returns the default on a blank or all-whitespace
line (and on exhausted input), and otherwise answers true exactly when the
trimmed line is literally "y" or "Y"; in particular "yes" is a negative
answer, so typing it at the delete-model confirmation cancels the
deletion with no write. -/
theorem promptBool_trim_y_only (d : Bool) (line : String) (rest : List String) :
    (goTrim line = "" → promptBool d (line :: rest) = (d, rest)) ∧
    (goTrim line ≠ "" →
      promptBool d (line :: rest) = ((goTrim line = "y" || goTrim line = "Y"), rest)) ∧
    promptBool d [] = (d, []) ∧
    (promptBool d ("yes" :: rest)).1 = false ∧
    deleteModel ["p"] ["m"] cfgC10 ["1", "1", "yes"] =
      { saved := none, notices := ["Cancelled"], panicked := false } := by
  refine ⟨fun h => by simp [promptBool, h], fun h => by simp [promptBool, h], rfl, rfl, ?_⟩
  decide

/-- Witness for C10: concrete instances discharging the hypotheses. -/
theorem promptBool_trim_y_only_witness :
    (goTrim "  " = "" ∧ promptBool true ["  "] = (true, [])) ∧
    (goTrim " y " ≠ "" ∧ promptBool false [" y "] = (true, [])) := by
  refine ⟨⟨by decide, ?_⟩, ⟨by decide, ?_⟩⟩
  · exact (promptBool_trim_y_only true "  " []).1 (by decide)
  · rw [(promptBool_trim_y_only false " y " []).2.1 (by decide)]; decide

theorem extraArgLoop_append (fuel : Nat) :
    ∀ (cmdArray : List String) (input : List String), ∃ extras rest,
      extraArgLoop fuel cmdArray input = (cmdArray ++ extras, rest) ∧
      ∀ e ∈ extras, e ≠ "" := by
  induction fuel with
  | zero =>
    intro c i
    exact ⟨[], i, by simp [extraArgLoop], by simp⟩
  | succ n ih =>
    intro c i
    by_cases h : (promptBool false i).1 = false
    · exact ⟨[], (promptBool false i).2, by simp [extraArgLoop, h], by simp⟩
    · by_cases h2 : (promptString "" (promptBool false i).2).1 ≠ ""
      · obtain ⟨ex, rest, he, hne⟩ :=
          ih (c ++ [(promptString "" (promptBool false i).2).1])
             (promptString "" (promptBool false i).2).2
        refine ⟨(promptString "" (promptBool false i).2).1 :: ex, rest, ?_, ?_⟩
        · simp only [extraArgLoop, if_neg h, if_pos h2, he, List.append_assoc,
            List.singleton_append]
        · intro e hm
          rcases List.mem_cons.mp hm with rfl | hm2
          · exact h2
          · exact hne e hm2
      · obtain ⟨ex, rest, he, hne⟩ := ih c (promptString "" (promptBool false i).2).2
        refine ⟨ex, rest, ?_, hne⟩
        simp only [extraArgLoop, if_neg h, if_neg h2, he]

/-- Empty loaded configuration used by the add-mcp runs below. -/
def cfgC9 : Config :=
  { schema := schemaMarker, provider := some [], model := "", smallModel := "",
    enabledProviders := [], disabledProviders := [], mcp := some [] }

/-- C9.  The command sequence a local MCP server persists is the
executable followed by the whitespace-split tokens of the argument
string, followed by the individually appended (non-blank) extra
arguments; on the spec example the persisted sequence is exactly
["npx", "-y", "@modelcontextprotocol/server-everything"]. -/
theorem mcp_local_command_tokenization :
    (∀ (cmd args : String) (fuel : Nat) (input : List String), ∃ extras rest,
        extraArgLoop fuel ([cmd] ++ (if args ≠ "" then strFields args else [])) input =
          (cmd :: strFields args ++ extras, rest) ∧ ∀ e ∈ extras, e ≠ "") ∧
    strFields "-y @modelcontextprotocol/server-everything" =
      ["-y", "@modelcontextprotocol/server-everything"] ∧
    addMCPServer cfgC9
        ["everything", "1", "npx", "-y @modelcontextprotocol/server-everything",
         "n", "n", "y", "n"] =
      { saved := some { cfgC9 with mcp := some [("everything",
          { type := "local",
            command := ["npx", "-y", "@modelcontextprotocol/server-everything"],
            environment := [], url := "", headers := [], oauth := [],
            enabled := none, timeout := none })] },
        notices := [], panicked := false } := by
  refine ⟨?_, by decide, by decide⟩
  intro cmd args fuel input
  have hbase : [cmd] ++ (if args ≠ "" then strFields args else []) = cmd :: strFields args := by
    by_cases h : args = ""
    · simp [h, strFields, fieldsAux]
    · simp [h]
  rw [hbase]
  obtain ⟨ex, rest, he, hne⟩ := extraArgLoop_append fuel (cmd :: strFields args) input
  exact ⟨ex, rest, by simpa using he, hne⟩

/-- Provider with one model for the C8 add-model run. -/
def provC8 : Provider :=
  { npm := "@ai-sdk/openai-compatible", name := "P",
    options := some [("baseURL", JValue.str "u")],
    models := some [("m", { name := "M", id := "", limit := none })] }

/-- Loaded configuration for the C8 runs. -/
def cfgC8 : Config :=
  { schema := schemaMarker, provider := some [("p", provC8)], model := "",
    smallModel := "", enabledProviders := [], disabledProviders := [], mcp := some [] }

/-- Models map expected after the C8 add-model run: the unparsable limit
answers persisted as zeros. -/
def modelsC8 : List (String × Model) :=
  [("m", { name := "M", id := "", limit := none }),
   ("m2", { name := "m2", id := "", limit := some { context := 0, output := 0 } })]

/-- Server expected after the C8 add-mcp run: the unparsable timeout
persisted as zero. -/
def serverC8 : MCPServer :=
  { type := "local", command := ["c"], environment := [], url := "",
    headers := [], oauth := [], enabled := none, timeout := some 0 }

/-- C8.  A non-blank answer to a token-limit or timeout prompt that fails
numeric scanning is not rejected: the scan leaves the zero-initialized
int at 0, the operation proceeds normally, the resulting limit fields are
0 (and a zero limit renders as not set in the provider listing, whose
guards require strictly positive fields), and an unparsable timeout is
stored as 0.  The two concrete runs complete with a save and the zero
values persisted. -/
theorem numeric_parse_lenient (s : String) (hfail : sscanfD s = none) :
    sscanfIntOrZero s = 0 ∧
    (s ≠ "" → ∀ os : String, buildLimit s os =
        some { context := 0, output := if os ≠ "" then sscanfIntOrZero os else 0 }) ∧
    (s ≠ "" → applyTimeout s = some 0) ∧
    (∀ l : ModelLimit, l.context ≤ 0 → l.output ≤ 0 → limitSuffix l = "") ∧
    addModel ["p"] cfgC8 ["p", "m2", "", "y", "abc", "zzz", "n"] =
      { saved := some { cfgC8 with
          provider := some [("p", { provC8 with models := some modelsC8 })] },
        notices := [], panicked := false } ∧
    addMCPServer cfgC8 ["t1", "1", "c", "", "n", "n", "y", "y", "QQ"] =
      { saved := some { cfgC8 with mcp := some [("t1", serverC8)] },
        notices := [], panicked := false } := by
  refine ⟨?_, ?_, ?_, ?_, by decide, by decide⟩
  · simp [sscanfIntOrZero, hfail]
  · intro hne os
    simp [buildLimit, hne, sscanfIntOrZero, hfail]
  · intro hne
    simp [applyTimeout, hne, sscanfIntOrZero, hfail]
  · intro l hc ho
    simp [limitSuffix, not_lt.mpr hc, not_lt.mpr ho]

/-- Witness for C8: the unparsable input "abc". -/
theorem numeric_parse_lenient_witness :
    sscanfD "abc" = none ∧ sscanfIntOrZero "abc" = 0 ∧
    buildLimit "abc" "" = some { context := 0, output := 0 } ∧
    applyTimeout "abc" = some 0 := by
  have h := numeric_parse_lenient "abc" (by decide)
  refine ⟨by decide, h.1, ?_, h.2.2.1 (by decide)⟩
  have h2 := h.2.1 (by decide) ""
  simpa using h2

/-- Loaded configuration with an empty (non-nil) MCP map for the C6
runs. -/
def cfgC6 : Config :=
  { schema := schemaMarker, provider := some [], model := "", smallModel := "",
    enabledProviders := [], disabledProviders := [], mcp := some [] }

/-- A local server stored with absent `enabled`, for the C6 rendering
conjunct. -/
def serverC6 : MCPServer :=
  { type := "local", command := ["c"], environment := [], url := "",
    headers := [], oauth := [], enabled := none, timeout := none }

/-- C6.  The enable-on-startup step writes `enabled` only on an explicit
decline (an accepted or defaulted prompt leaves the field absent), and
the list-mcp rendering shows a server with the field absent as
"enabled".  The two concrete add-mcp runs differ only in the
enable-on-startup answer ("y" then "n") and persist, respectively, no
marker and an explicit false marker. -/
theorem mcp_enabled_default_semantics :
    (∀ (s : MCPServer) (a : Bool), s.enabled = none →
        (applyEnabled s a).enabled = if a then none else some false) ∧
    (∀ s : MCPServer, s.enabled = none → mcpStatus s = "enabled") ∧
    (∀ cfg : Config, ∀ p ∈ cfg.mcp.getD [], p.2.enabled = none →
        (p.1, "enabled") ∈ listMCPServersStatuses cfg) ∧
    addMCPServer cfgC6 ["s1", "1", "c", "", "n", "n", "y", "n"] =
      { saved := some { cfgC6 with mcp := some [("s1", serverC6)] },
        notices := [], panicked := false } ∧
    addMCPServer cfgC6 ["s1", "1", "c", "", "n", "n", "n", "n"] =
      { saved := some { cfgC6 with mcp := some [("s1",
          { serverC6 with enabled := some false })] },
        notices := [], panicked := false } ∧
    listMCPServersStatuses { cfgC6 with mcp := some [("s1", serverC6)] } =
      [("s1", "enabled")] := by
  refine ⟨?_, ?_, ?_, by decide, by decide, by decide⟩
  · intro s a h
    cases a <;> simp [applyEnabled, h]
  · intro s h
    simp [mcpStatus, h]
  · intro cfg p hp h
    have : (p.1, mcpStatus p.2) ∈ listMCPServersStatuses cfg :=
      List.mem_map_of_mem _ hp
    simpa [mcpStatus, h] using this

/-- Witness for C6: a concrete server with the field absent. -/
theorem mcp_enabled_default_semantics_witness :
    (applyEnabled serverC6 true).enabled = none ∧
    (applyEnabled serverC6 false).enabled = some false ∧
    mcpStatus serverC6 = "enabled" := by
  have h := mcp_enabled_default_semantics
  refine ⟨?_, ?_, h.2.1 serverC6 (by decide)⟩
  · have := h.1 serverC6 true (by decide)
    simpa using this
  · have := h.1 serverC6 false (by decide)
    simpa using this

theorem getKey_setKey {α : Type} (l : List (String × α)) (k : String) (v : α) :
    getKey (setKey l k v) k = some v := by
  induction l with
  | nil => simp [setKey, getKey]
  | cons p rest ih =>
    obtain ⟨k2, v2⟩ := p
    simp only [setKey]
    by_cases h : k = k2
    · simp [h, getKey]
    · by_cases h2 : strLt k k2 = true
      · simp [h, h2, getKey]
      · simp [h, h2, getKey, ih]

/-- Pre-existing provider entry for the C2 run. -/
def provOldC2 : Provider :=
  { npm := "@ai-sdk/openai-compatible", name := "Old",
    options := some [("baseURL", JValue.str "http://old")], models := some [] }

/-- Provider entry that the all-blank C2 run constructs from the prompt
defaults. -/
def provNewC2 : Provider :=
  { npm := "@ai-sdk/openai-compatible", name := "Custom Provider",
    options := some [("baseURL", JValue.str "http://localhost:11434/v1")],
    models := some [] }

/-- Loaded configuration whose provider map already holds the default key
"custom". -/
def cfgC2 : Config :=
  { schema := schemaMarker, provider := some [("custom", provOldC2)], model := "",
    smallModel := "", enabledProviders := [], disabledProviders := [], mcp := some [] }

/-- Counterexample to C2.  The entered provider key ("custom", taken as
the prompt default on the all-blank script) already exists in the loaded
configuration, and on this script every yes/no prompt the operation could
ask reads as a decline (an exhausted input returns the `false` default,
first conjunct) — yet no overwrite confirmation exists in addProvider:
the operation neither aborts nor leaves the entry alone, it replaces the
entry and saves. -/
theorem addProvider_overwrites_without_confirmation :
    (promptBool false []).1 = false ∧
    hasKey (cfgC2.provider.getD []) "custom" = true ∧
    addProvider [] cfgC2 [] =
      { saved := some { cfgC2 with provider := some [("custom", provNewC2)] },
        notices := [], panicked := false } ∧
    provNewC2.name ≠ provOldC2.name := by
  exact ⟨by decide, by decide, by decide, by decide⟩

/-- C2 as amended.  addProvider performs no existence check on the
entered key: the write `config.Provider[providerKey] = provider`
unconditionally replaces any existing entry under that key, and the
operation always reaches the save (assuming the loaded, non-nil provider
map); the overwrite-confirmation path exists in add-model and add-mcp,
not in add-provider. -/
theorem addProvider_always_replaces :
    (∀ (cfg : Config) (ps : List (String × Provider)) (key : String) (prov : Provider),
        cfg.provider = some ps →
        insertProvider cfg key prov =
          some { cfg with provider := some (setKey ps key prov) } ∧
        getKey (setKey ps key prov) key = some prov) ∧
    (∀ (rangeOrder : List String) (cfg : Config) (input : List String)
        (ps : List (String × Provider)), cfg.provider = some ps →
        ∃ c2, (addProvider rangeOrder cfg input).saved = some c2 ∧
              (addProvider rangeOrder cfg input).panicked = false) := by
  constructor
  · intro cfg ps key prov hp
    exact ⟨by simp [insertProvider, hp], getKey_setKey ps key prov⟩
  · intro rangeOrder cfg input ps hp
    simp only [addProvider, insertProvider, hp]
    exact ⟨_, rfl, trivial⟩

/-- Witness for the amended C2. -/
theorem addProvider_always_replaces_witness :
    insertProvider cfgC2 "custom" provNewC2 =
      some { cfgC2 with provider := some [("custom", provNewC2)] } ∧
    ∃ c2, (addProvider [] cfgC2 []).saved = some c2 ∧
          (addProvider [] cfgC2 []).panicked = false := by
  constructor
  · have h := (addProvider_always_replaces.1 cfgC2 [("custom", provOldC2)]
      "custom" provNewC2 rfl).1
    rw [h]; decide
  · exact addProvider_always_replaces.2 [] cfgC2 [] [("custom", provOldC2)] rfl

/-- Models map built by the C3 run: "a" was entered first, "b" second. -/
def modelsC3 : List (String × Model) :=
  [("a", { name := "a", id := "", limit := none }),
   ("b", { name := "b", id := "", limit := none })]

/-- Provider that the C3 run constructs. -/
def provC3 : Provider :=
  { npm := "@ai-sdk/openai-compatible", name := "P",
    options := some [("baseURL", JValue.str "http://localhost:11434/v1")],
    models := some modelsC3 }

/-- Empty loaded configuration for the C3 run. -/
def cfgC3 : Config :=
  { schema := schemaMarker, provider := some [], model := "", smallModel := "",
    enabledProviders := [], disabledProviders := [], mcp := some [] }

/-- Counterexample to C3.  The run enters the models "a" then "b" (in
that insertion order) and opts in to setting the default; the claim
requires the default "p/a".  But `getFirstModelID` takes whichever key
the unspecified Go map range enumeration yields first, and under the
enumeration ["b", "a"] — a permutation of the keys, hence a possible
range order — the run persists "p/b". -/
theorem addProvider_default_not_first_inserted :
    List.Perm ["b", "a"] (keysOf modelsC3) ∧
    keysOf modelsC3 = ["a", "b"] ∧
    addProvider ["b", "a"] cfgC3
        ["p", "P", "", "", "", "a", "", "", "y", "b", "", "", "n", "y"] =
      { saved := some { cfgC3 with provider := some [("p", provC3)], model := "p/b" },
        notices := [], panicked := false } ∧
    ("p/b" : String) ≠ "p/a" :=
  ⟨by decide, by decide, by decide, by decide⟩

/-- C3 as amended.  When no model was added, or the user does not opt in,
the default-model field is unchanged; when at least one model was added
and the user opts in, it is set to `<providerKey>/<m>` where `m` is one
of the added models — whichever the unspecified map enumeration yields
first, which is the first model added only when a single model was added
(third conjunct), not in general. -/
theorem applyDefaultModel_one_of_models (cfg : Config) (key : String)
    (models : List (String × Model)) (rangeOrder : List String) (optIn : Bool)
    (hperm : rangeOrder.Perm (keysOf models)) :
    (models = [] ∨ optIn = false →
        applyDefaultModel cfg key models rangeOrder optIn = cfg) ∧
    (models ≠ [] → optIn = true →
        ∃ m ∈ keysOf models,
          applyDefaultModel cfg key models rangeOrder optIn =
            { cfg with model := key ++ "/" ++ m }) ∧
    (∀ m, keysOf models = [m] → optIn = true →
        applyDefaultModel cfg key models rangeOrder optIn =
          { cfg with model := key ++ "/" ++ m }) := by
  refine ⟨?_, ?_, ?_⟩
  · rintro (h | h) <;> simp [applyDefaultModel, h]
  · intro hne hopt
    have hlen : models.length > 0 := List.length_pos.mpr hne
    have hro : rangeOrder ≠ [] := by
      intro h0
      rw [h0] at hperm
      have hK : keysOf models = [] := (hperm.symm).eq_nil
      exact hne (by simpa [keysOf] using hK)
    obtain ⟨m0, ro, rfl⟩ := List.exists_cons_of_ne_nil hro
    refine ⟨m0, hperm.subset (by simp), ?_⟩
    simp [applyDefaultModel, hlen, hopt, getFirstModelID]
  · intro m hK hopt
    have hro : rangeOrder = [m] := by
      rw [hK] at hperm
      exact List.perm_singleton.mp hperm
    have hlen : models.length > 0 := by
      have h1 : (keysOf models).length = 1 := by rw [hK]; rfl
      simpa [keysOf] using Nat.lt_of_lt_of_eq Nat.zero_lt_one h1.symm
    simp [applyDefaultModel, hlen, hopt, hro, getFirstModelID]

/-- Witness for the amended C3. -/
theorem applyDefaultModel_one_of_models_witness :
    List.Perm ["b", "a"] (keysOf modelsC3) ∧
    (∃ m ∈ keysOf modelsC3,
        applyDefaultModel cfgC3 "p" modelsC3 ["b", "a"] true =
          { cfgC3 with model := "p" ++ "/" ++ m }) ∧
    applyDefaultModel cfgC3 "p" modelsC3 ["b", "a"] false = cfgC3 := by
  refine ⟨by decide, ?_, ?_⟩
  · exact (applyDefaultModel_one_of_models cfgC3 "p" modelsC3 ["b", "a"] true
      (by decide)).2.1 (by decide) rfl
  · exact (applyDefaultModel_one_of_models cfgC3 "p" modelsC3 ["b", "a"] false
      (by decide)).1 (Or.inr rfl)

/-- Provider holding the model that the default references, for C4. -/
def provC4 : Provider :=
  { npm := "@ai-sdk/openai-compatible", name := "P",
    options := some [("baseURL", JValue.str "u")],
    models := some [("m", { name := "M", id := "", limit := none })] }

/-- Loaded configuration whose default-model field references provider
"p" and its model "m". -/
def cfgC4 : Config :=
  { schema := schemaMarker, provider := some [("p", provC4)], model := "p/m",
    smallModel := "", enabledProviders := [], disabledProviders := [], mcp := some [] }

/-- Counterexample to C4.  Deleting provider "p" while the default-model
field reads "p/m" saves a configuration whose default-model field still
reads "p/m" — the field is not cleared, in either deleteProvider
revision (the key-typed one from src/main.go and the menu-driven current
one), so half of the claim fails; the delete-model half does hold (see
the amended theorem). -/
theorem deleteProvider_keeps_dangling_default :
    cfgC4.model = "p/m" ∧
    hasKey (cfgC4.provider.getD []) "p" = true ∧
    deleteProviderKeyed cfgC4 ["p"] =
      { saved := some { cfgC4 with provider := some [] },
        notices := [], panicked := false } ∧
    deleteProvider ["p"] cfgC4 ["1", "y"] =
      { saved := some { cfgC4 with provider := some [] },
        notices := [], panicked := false } ∧
    ({ cfgC4 with provider := some [] } : Config).model = "p/m" ∧
    ("p/m" : String) ≠ "" :=
  ⟨by decide, by decide, by decide, by decide, by decide, by decide⟩

/-- C4 as amended.  Deleting the model that the default-model field
references clears the field to empty and warns the user (first conjunct);
deleting any other model leaves the field unchanged with no warning
(second conjunct); deleting a provider never touches the default-model
field, in either deleteProvider revision, even when the deleted provider
is the one the field references (last two conjuncts). -/
theorem delete_default_clearing_spec :
    (∀ (cfg : Config) (ps : List (String × Provider)) (prov : Provider)
        (ms : List (String × Model)) (pk mid : String),
        cfg.model = pk ++ "/" ++ mid →
        (deleteModelFinish cfg ps prov ms pk mid).saved =
          some { cfg with
                 provider := some (setKey ps pk { prov with models := some (delKey ms mid) }),
                 model := "" } ∧
        "Warning: This was the default model. Default model cleared." ∈
          (deleteModelFinish cfg ps prov ms pk mid).notices) ∧
    (∀ (cfg : Config) (ps : List (String × Provider)) (prov : Provider)
        (ms : List (String × Model)) (pk mid : String),
        cfg.model ≠ pk ++ "/" ++ mid →
        (deleteModelFinish cfg ps prov ms pk mid).saved =
          some { cfg with
                 provider := some (setKey ps pk { prov with models := some (delKey ms mid) }) } ∧
        (deleteModelFinish cfg ps prov ms pk mid).notices = []) ∧
    (∀ (cfg : Config) (input : List String) (c2 : Config),
        (deleteProviderKeyed cfg input).saved = some c2 → c2.model = cfg.model) ∧
    (∀ (keysOrder : List String) (cfg : Config) (input : List String) (c2 : Config),
        (deleteProvider keysOrder cfg input).saved = some c2 → c2.model = cfg.model) := by
  refine ⟨?_, ?_, ?_, ?_⟩
  · intro cfg ps prov ms pk mid h
    constructor <;> simp [deleteModelFinish, h]
  · intro cfg ps prov ms pk mid h
    constructor <;> simp [deleteModelFinish, h]
  · intro cfg input c2 h
    simp only [deleteProviderKeyed] at h
    split at h
    · simp at h
    · split at h
      · simp at h
      · split at h
        · simp at h
        · simp only [Option.some.injEq] at h
          rw [← h]
  · intro keysOrder cfg input c2 h
    simp only [deleteProvider] at h
    split at h
    · simp at h
    · split at h
      · simp at h
      · split at h
        · simp at h
        · split at h
          · simp at h
          · simp only [Option.some.injEq] at h
            rw [← h]

/-- Witness for the amended C4. -/
theorem delete_default_clearing_spec_witness :
    (deleteModelFinish cfgC4 [("p", provC4)] provC4
        [("m", { name := "M", id := "", limit := none })] "p" "m").saved =
      some { cfgC4 with
             provider := some [("p", { provC4 with models := some [] })], model := "" } ∧
    "Warning: This was the default model. Default model cleared." ∈
      (deleteModelFinish cfgC4 [("p", provC4)] provC4
        [("m", { name := "M", id := "", limit := none })] "p" "m").notices ∧
    ({ cfgC4 with provider := some [] } : Config).model = cfgC4.model := by
  have h := delete_default_clearing_spec.1 cfgC4 [("p", provC4)] provC4
    [("m", { name := "M", id := "", limit := none })] "p" "m" (by decide)
  have h3 := delete_default_clearing_spec.2.2.1 cfgC4 ["p"]
    { cfgC4 with provider := some [] } (by decide)
  refine ⟨?_, h.2, h3⟩
  rw [h.1]; decide

theorem getKey_eq_none_of_hasKey_false {α : Type} (l : List (String × α)) (k : String)
    (h : hasKey l k = false) : getKey l k = none := by
  cases hg : getKey l k <;> simp_all [hasKey]

/-- C7.  The three cited validation-failure shapes end the operation with
a plain diagnostic and no file write, whatever configuration was loaded:
a remote MCP server with a blank URL (first conjunct), an out-of-range
menu selection in the menu-driven deleteProvider (second conjunct — this
path runs through the spec-modelled `getMenuChoice`), and a provider
reference in add-model that resolves to no key (third conjunct).  No
error is propagated: the embedded operations return an `OpResult`
normally, mirroring the `return nil` on every such path. -/
theorem validation_failure_no_write :
    (∀ (cfg : Config) (name : String) (rest : List String),
        goTrim name ≠ "" →
        hasKey (cfg.mcp.getD []) (goTrim name) = false →
        addMCPServer cfg (name :: "2" :: "" :: rest) =
          { saved := none, notices := ["URL is required for remote servers"],
            panicked := false }) ∧
    (∀ (keysOrder : List String) (cfg : Config) (input : List String)
        (ps : List (String × Provider)),
        cfg.provider = some ps → ps ≠ [] →
        (getMenuChoice (ps.length : Int) input).1 = -1 →
        deleteProvider keysOrder cfg input =
          { saved := none, notices := ["Invalid choice"], panicked := false }) ∧
    (∀ (provOrder : List String) (cfg : Config) (ps : List (String × Provider))
        (sel : String) (rest : List String),
        cfg.provider = some ps → ps ≠ [] →
        goTrim sel ≠ "" → sscanfD (goTrim sel) = none →
        hasKey ps (goTrim sel) = false →
        addModel provOrder cfg (sel :: rest) =
          { saved := none,
            notices := ["Provider \x27" ++ goTrim sel ++ "\x27 not found"],
            panicked := false }) := by
  refine ⟨?_, ?_, ?_⟩
  · intro cfg name rest h1 h2
    have e1 : promptString "" (name :: "2" :: "" :: rest) =
        (goTrim name, "2" :: "" :: rest) := by
      by_cases hb : goTrim name = "" <;> simp [promptString, hb]
    have t2 : promptString "1" ("2" :: "" :: rest) = ("2", "" :: rest) := rfl
    have t0 : promptString "" ("" :: rest) = ("", rest) := rfl
    simp only [addMCPServer, e1, if_neg h1, h2]
    simp [t2, t0]
  · intro keysOrder cfg input ps hp hne hm
    have hlen : ¬ ps.length = 0 := by simpa [List.length_eq_zero] using hne
    simp only [deleteProvider, hp, Option.getD_some, if_neg hlen, hm]
    simp
  · intro provOrder cfg ps sel rest hp hne hsel hscan hkey
    have e1 : promptString "" (sel :: rest) = (goTrim sel, rest) := by
      by_cases hb : goTrim sel = "" <;> simp [promptString, hb]
    have hlen : ¬ ps.length = 0 := by simpa [List.length_eq_zero] using hne
    have hget : getKey ps (goTrim sel) = none :=
      getKey_eq_none_of_hasKey_false ps (goTrim sel) hkey
    simp only [addModel, hp, Option.getD_some, if_neg hlen, e1, if_neg hsel, hscan, hget]

/-- Witness for C7: concrete instances of all three failure shapes. -/
theorem validation_failure_no_write_witness :
    addMCPServer cfgC4 ["r1", "2", ""] =
      { saved := none, notices := ["URL is required for remote servers"],
        panicked := false } ∧
    deleteProvider ["p"] cfgC4 ["7"] =
      { saved := none, notices := ["Invalid choice"], panicked := false } ∧
    addModel ["p"] cfgC4 ["nosuch"] =
      { saved := none, notices := ["Provider \x27nosuch\x27 not found"],
        panicked := false } := by
  refine ⟨?_, ?_, ?_⟩
  · exact validation_failure_no_write.1 cfgC4 "r1" [] (by decide) (by decide)
  · exact validation_failure_no_write.2.1 ["p"] cfgC4 ["7"] [("p", provC4)] rfl
      (by decide) (by decide)
  · have h := validation_failure_no_write.2.2 ["p"] cfgC4 [("p", provC4)] "nosuch" []
      rfl (by decide) (by decide) (by decide) (by decide)
    simpa using h

theorem insKey_mapVal {α β : Type} (f : α → β) (p : String × α) (l : List (String × α)) :
    insKey (p.1, f p.2) (mapVal f l) = mapVal f (insKey p l) := by
  induction l with
  | nil => rfl
  | cons q rest ih =>
    simp only [mapVal, List.map] at ih ⊢
    simp only [insKey]
    by_cases h : strLt q.1 p.1 = true
    · simp [h, ih]
    · simp [h]

theorem sortKey_mapVal {α β : Type} (f : α → β) (l : List (String × α)) :
    sortKey (mapVal f l) = mapVal f (sortKey l) := by
  induction l with
  | nil => rfl
  | cons p rest ih =>
    simp only [mapVal, List.map, sortKey] at ih ⊢
    rw [ih]
    exact insKey_mapVal f p (sortKey rest)

/-- Representation invariant of an `interface{}`-valued map: the entries
sit in the canonical (sorted-key) order with canon-fixed values.  This
carries no information about the represented unordered Go map — every
map has exactly one such representative — it only pins the list
representation down. -/
def wfFieldsB (fs : List (String × JValue)) : Bool :=
  decide (sortKey fs = fs) && decide (mapVal JValue.canon fs = fs)

/-- Representation invariant of a provider: its maps are canonically
ordered. -/
def wfProviderB (p : Provider) : Bool :=
  (match p.options with
   | none => true
   | some fs => wfFieldsB fs) &&
  (match p.models with
   | none => true
   | some ms => decide (sortKey ms = ms))

/-- Representation invariant of an MCP server. -/
def wfMCPB (s : MCPServer) : Bool :=
  decide (sortKey s.environment = s.environment) &&
  decide (sortKey s.headers = s.headers) &&
  wfFieldsB s.oauth

/-- Representation invariant of a configuration: every association list
representing a Go map is in canonical order. -/
def wfConfigB (c : Config) : Bool :=
  (match c.provider with
   | none => true
   | some ps => decide (sortKey ps = ps) && ps.all (fun kp => wfProviderB kp.2)) &&
  (match c.mcp with
   | none => true
   | some ms => decide (sortKey ms = ms) && ms.all (fun km => wfMCPB km.2))

theorem decodeLimit_marshal (l : ModelLimit) : decodeLimit (marshalLimit l) = some l := by
  obtain ⟨lc, lo⟩ := l
  by_cases hc : lc = 0 <;> by_cases ho : lo = 0 <;>
    simp [marshalLimit, decodeLimit, decodeIntField, getKey, hc, ho]

theorem decodeLimitField_marshal (l : ModelLimit) :
    decodeLimitField (some (marshalLimit l)) = some (some l) := by
  obtain ⟨fs, hfs⟩ : ∃ fs, marshalLimit l = .obj fs := ⟨_, rfl⟩
  rw [hfs]
  show (decodeLimit (JValue.obj fs)).map some = some (some l)
  rw [← hfs, decodeLimit_marshal]
  rfl

theorem decodeLimitField_none : decodeLimitField none = some none := rfl

theorem decodeModel_marshal (m : Model) : decodeModel (marshalModel m) = some m := by
  obtain ⟨mn, mi, ml⟩ := m
  by_cases hid : mi = "" <;> cases ml <;>
    simp [marshalModel, decodeModel, decodeStrField, getKey, hid, decodeLimitField_marshal,
      decodeLimitField_none]

theorem decodeEntries_mapVal {α : Type} (f : α → JValue) (g : JValue → Option α)
    (hfg : ∀ a, g (f a) = some a) (l : List (String × α)) :
    decodeEntries g (mapVal f l) = some l := by
  induction l with
  | nil => rfl
  | cons p rest ih =>
    simp only [mapVal, List.map] at ih ⊢
    simp [decodeEntries, hfg, ih]

theorem decodeStrList_map (l : List String) : decodeStrList (l.map JValue.str) = some l := by
  induction l with
  | nil => rfl
  | cons s rest ih => simp [decodeStrList, ih]

theorem decodeStrMap_marshal (l : List (String × String)) (h : sortKey l = l) :
    decodeStrMap (marshalStrMap l) = some l := by
  have hs : sortKey (mapVal JValue.str l) = mapVal JValue.str l := by
    rw [sortKey_mapVal, h]
  simp only [marshalStrMap, hs, decodeStrMap]
  exact decodeEntries_mapVal JValue.str _ (fun a => rfl) l

theorem marshalJMap_of_wf (fs : List (String × JValue)) (h : wfFieldsB fs = true) :
    marshalJMap fs = fs := by
  simp only [wfFieldsB, Bool.and_eq_true, decide_eq_true_eq] at h
  simp only [marshalJMap, h.2, h.1]

theorem decodeEntries_mapVal_of {α : Type} (f : α → JValue) (g : JValue → Option α)
    (l : List (String × α)) (hfg : ∀ p ∈ l, g (f p.2) = some p.2) :
    decodeEntries g (mapVal f l) = some l := by
  induction l with
  | nil => rfl
  | cons p rest ih =>
    simp only [mapVal, List.map] at ih ⊢
    have h1 := hfg p (by simp)
    have h2 : ∀ q ∈ rest, g (f q.2) = some q.2 := fun q hq => hfg q (by simp [hq])
    simp [decodeEntries, h1, ih h2]

theorem decodeProvider_marshal (p : Provider) (h : wfProviderB p = true) :
    decodeProvider (marshalProvider p) = some p := by
  obtain ⟨pn, pnm, popt, pms⟩ := p
  simp only [wfProviderB, Bool.and_eq_true] at h
  cases popt with
  | none =>
    cases pms with
    | none =>
      simp [marshalProvider, decodeProvider, decodeStrField, decodeOptJMapField,
        decodeModelsField, getKey]
    | some ms =>
      have hms : sortKey (mapVal marshalModel ms) = mapVal marshalModel ms := by
        rw [sortKey_mapVal, show sortKey ms = ms from by simpa using h.2]
      simp [marshalProvider, decodeProvider, decodeStrField, decodeOptJMapField,
        decodeModelsField, getKey, hms,
        decodeEntries_mapVal marshalModel decodeModel decodeModel_marshal]
  | some fs =>
    have hfs : marshalJMap fs = fs := marshalJMap_of_wf fs (by simpa using h.1)
    cases pms with
    | none =>
      simp [marshalProvider, decodeProvider, decodeStrField, decodeOptJMapField,
        decodeModelsField, getKey, hfs]
    | some ms =>
      have hms : sortKey (mapVal marshalModel ms) = mapVal marshalModel ms := by
        rw [sortKey_mapVal, show sortKey ms = ms from by simpa using h.2]
      simp [marshalProvider, decodeProvider, decodeStrField, decodeOptJMapField,
        decodeModelsField, getKey, hfs, hms,
        decodeEntries_mapVal marshalModel decodeModel decodeModel_marshal]

theorem decodeStrMapField_none : decodeStrMapField none = some [] := rfl

theorem decodeStrMapField_marshal (l : List (String × String)) (h : sortKey l = l) :
    decodeStrMapField (some (marshalStrMap l)) = some l := by
  obtain ⟨fs, hfs⟩ : ∃ fs, marshalStrMap l = .obj fs := ⟨_, rfl⟩
  rw [hfs]
  show decodeStrMap (JValue.obj fs) = some l
  rw [← hfs]
  exact decodeStrMap_marshal l h

theorem decodeMCP_marshal (s : MCPServer) (h : wfMCPB s = true) :
    decodeMCP (marshalMCP s) = some s := by
  obtain ⟨ty, cmd, env, url, hdr, oa, en, tm⟩ := s
  simp only [wfMCPB, Bool.and_eq_true, decide_eq_true_eq] at h
  obtain ⟨⟨henv, hhdr⟩, hoaB⟩ := h
  have hoa : marshalJMap oa = oa := marshalJMap_of_wf oa (by simpa using hoaB)
  have he := decodeStrMapField_marshal env henv
  have hh := decodeStrMapField_marshal hdr hhdr
  by_cases h1 : cmd = [] <;> by_cases h2 : env = [] <;> by_cases h3 : url = "" <;>
    by_cases h4 : hdr = [] <;> by_cases h5 : oa = [] <;> cases en <;> cases tm <;>
    simp [marshalMCP, decodeMCP, decodeStrField, decodeStrListField,
      decodeJMapField, decodeBoolPtrField, decodeIntPtrField, getKey,
      h1, h2, h3, h4, h5, hoa, he, hh, decodeStrMapField_none, decodeStrList_map]

theorem decodeConfig_marshal (c : Config) (h : wfConfigB c = true) :
    decodeConfig (marshalConfig c) =
      some { c with mcp := match c.mcp with
                           | none => none
                           | some ms => if ms = [] then none else some ms } := by
  obtain ⟨sc, pv, md, sm, ep, dp, mc⟩ := c
  simp only [wfConfigB, Bool.and_eq_true] at h
  obtain ⟨hpv, hmc⟩ := h
  cases pv with
  | none =>
    cases mc with
    | none =>
      by_cases h1 : md = "" <;> by_cases h2 : sm = "" <;> by_cases h3 : ep = [] <;>
        by_cases h4 : dp = [] <;>
        simp [marshalConfig, decodeConfig, decodeStrField, decodeProvidersField,
          decodeStrListField, decodeMCPMapField, getKey, h1, h2, h3, h4,
          decodeStrList_map]
    | some ms =>
      have hall : ∀ km ∈ ms, wfMCPB km.2 = true := by
        simp only [Bool.and_eq_true, List.all_eq_true] at hmc
        exact fun km hk => hmc.2 km hk
      have hs : sortKey (mapVal marshalMCP ms) = mapVal marshalMCP ms := by
        rw [sortKey_mapVal]
        rw [show sortKey ms = ms from by
          simp only [Bool.and_eq_true, decide_eq_true_eq] at hmc; exact hmc.1]
      have hent : decodeEntries decodeMCP (mapVal marshalMCP ms) = some ms :=
        decodeEntries_mapVal_of marshalMCP decodeMCP ms
          (fun p hp => decodeMCP_marshal p.2 (hall p hp))
      by_cases h5 : ms = [] <;> by_cases h1 : md = "" <;> by_cases h2 : sm = "" <;>
        by_cases h3 : ep = [] <;> by_cases h4 : dp = [] <;>
        simp [marshalConfig, decodeConfig, decodeStrField, decodeProvidersField,
          decodeStrListField, decodeMCPMapField, getKey, h1, h2, h3, h4, h5, hs, hent,
          decodeStrList_map]
  | some ps =>
    have hallp : ∀ kp ∈ ps, wfProviderB kp.2 = true := by
      simp only [Bool.and_eq_true, List.all_eq_true] at hpv
      exact fun kp hk => hpv.2 kp hk
    have hsp : sortKey (mapVal marshalProvider ps) = mapVal marshalProvider ps := by
      rw [sortKey_mapVal]
      rw [show sortKey ps = ps from by
        simp only [Bool.and_eq_true, decide_eq_true_eq] at hpv; exact hpv.1]
    have hentp : decodeEntries decodeProvider (mapVal marshalProvider ps) = some ps :=
      decodeEntries_mapVal_of marshalProvider decodeProvider ps
        (fun p hp => decodeProvider_marshal p.2 (hallp p hp))
    cases mc with
    | none =>
      by_cases h1 : md = "" <;> by_cases h2 : sm = "" <;> by_cases h3 : ep = [] <;>
        by_cases h4 : dp = [] <;>
        simp [marshalConfig, decodeConfig, decodeStrField, decodeProvidersField,
          decodeStrListField, decodeMCPMapField, getKey, h1, h2, h3, h4, hsp, hentp,
          decodeStrList_map]
    | some ms =>
      have hall : ∀ km ∈ ms, wfMCPB km.2 = true := by
        simp only [Bool.and_eq_true, List.all_eq_true] at hmc
        exact fun km hk => hmc.2 km hk
      have hs : sortKey (mapVal marshalMCP ms) = mapVal marshalMCP ms := by
        rw [sortKey_mapVal]
        rw [show sortKey ms = ms from by
          simp only [Bool.and_eq_true, decide_eq_true_eq] at hmc; exact hmc.1]
      have hent : decodeEntries decodeMCP (mapVal marshalMCP ms) = some ms :=
        decodeEntries_mapVal_of marshalMCP decodeMCP ms
          (fun p hp => decodeMCP_marshal p.2 (hall p hp))
      by_cases h5 : ms = [] <;> by_cases h1 : md = "" <;> by_cases h2 : sm = "" <;>
        by_cases h3 : ep = [] <;> by_cases h4 : dp = [] <;>
        simp [marshalConfig, decodeConfig, decodeStrField, decodeProvidersField,
          decodeStrListField, decodeMCPMapField, getKey, h1, h2, h3, h4, h5, hsp, hentp,
          hs, hent, decodeStrList_map]

/-- C5.  Loading a file written by `saveConfig` and re-saving it without
modification writes a structurally identical document — equality of the
marshalled trees, which with the fixed two-space indentation is byte
identity — and the cycle is idempotent: the loaded value `c1` re-loads as
itself, so every further load-save cycle rewrites the same bytes.  The
hypotheses are the load invariant (the provider map of a loaded
configuration is never nil; every configuration this program saves came
from `loadConfig`) and the canonical-representation invariant `wfConfigB`,
which only pins down the association-list representative of each
unordered Go map and excludes nothing the program can build.  The loaded
value differs from the saved one at most in the `mcp` collection (a nil
or empty map reloads as an empty one), which the `omitempty` marshalling
erases again — last conjunct. -/
theorem loadConfig_saveConfig_roundTrip (c : Config) (hwf : wfConfigB c = true)
    (ps : List (String × Provider)) (hp : c.provider = some ps) :
    ∃ c1, loadConfig (some (saveConfig c)) = .ok c1 ∧
          saveConfig c1 = saveConfig c ∧
          loadConfig (some (saveConfig c1)) = .ok c1 ∧
          c1 = { c with mcp := some (c.mcp.getD []) } := by
  have hd := decodeConfig_marshal c hwf
  have hwf1 : wfConfigB { c with mcp := some (c.mcp.getD []) } = true := by
    simp only [wfConfigB, Bool.and_eq_true] at hwf ⊢
    refine ⟨hwf.1, ?_⟩
    cases hmc : c.mcp with
    | none => simp [sortKey]
    | some ms =>
      have := hwf.2
      rw [hmc] at this
      simpa using this
  refine ⟨{ c with mcp := some (c.mcp.getD []) }, ?_, ?_, ?_, rfl⟩
  · simp only [loadConfig, saveConfig, hd]
    cases hmc : c.mcp with
    | none => simp [hp]
    | some ms => by_cases h5 : ms = [] <;> simp [hp, hmc, h5]
  · cases hmc : c.mcp with
    | none => simp [saveConfig, marshalConfig, hmc]
    | some ms => by_cases h5 : ms = [] <;> simp [saveConfig, marshalConfig, hmc, h5]
  · have hd1 := decodeConfig_marshal _ hwf1
    simp only [loadConfig, saveConfig, hd1]
    cases hmc : c.mcp with
    | none => simp [hp]
    | some ms => by_cases h5 : ms = [] <;> simp [hp, hmc, h5]

/-- Concrete configuration exercising the round trip: a provider with
options, an api key, a model with limits, a default model, and a disabled
MCP server. -/
def cfgC5 : Config :=
  { schema := schemaMarker,
    provider := some [("p",
      { npm := "@ai-sdk/openai-compatible", name := "P",
        options := some [("apiKey", JValue.str "k"), ("baseURL", JValue.str "u")],
        models := some [("m",
          { name := "M", id := "",
            limit := some { context := 128000, output := 65536 } })] })],
    model := "p/m", smallModel := "", enabledProviders := [], disabledProviders := [],
    mcp := some [("s",
      { type := "local", command := ["npx", "-y"], environment := [("A", "1")],
        url := "", headers := [], oauth := [], enabled := some false,
        timeout := some 5000 })] }

/-- Witness for C5. -/
theorem loadConfig_saveConfig_roundTrip_witness :
    wfConfigB cfgC5 = true ∧ cfgC5.provider ≠ none ∧
    ∃ c1, loadConfig (some (saveConfig cfgC5)) = .ok c1 ∧
          saveConfig c1 = saveConfig cfgC5 ∧
          loadConfig (some (saveConfig c1)) = .ok c1 ∧
          c1 = { cfgC5 with mcp := some (cfgC5.mcp.getD []) } :=
  ⟨by decide, by decide,
   loadConfig_saveConfig_roundTrip cfgC5 (by decide) _ rfl⟩
